import Mathlib

/-!
Verification of the version-bits threshold state machine
(src/versionbits.cpp, BIP 8 height-based activation).

A block chain is embedded tip-first: `c : List Nat` holds the 32-bit
version patterns of the blocks from the tip down to genesis, so the block
at the head of the list has height `c.length - 1` and the empty list is
the sentinel null pointer (the parent of genesis), whose height we take
to be -1.  All heights and deployment parameters are `Int`, matching the
C++ `int` arithmetic (no overflow occurs in the domain of the program).

The memoization cache of the C++ code is a pure optimization (states are
deterministic functions of the chain), so `GetStateFor` is embedded as
the pure recursion the cache-walk-back plus forward-pass computes: the
state of a period boundary is obtained from the state of the boundary one
period below.  The C++ loops terminate because the chain below any block
is finite; the embedding makes that explicit with a fuel argument that is
always instantiated with the chain length (each recursive call walks at
least one block down when `period ≥ 1`), and fuel-irrelevance lemmas
recover the defining equations.
-/

namespace VersionBits

/-- The six deployment states of the threshold machine (enum ThresholdState). -/
inductive ThresholdState where
  | DEFINED
  | STARTED
  | LOCKED_IN
  | MUST_SIGNAL
  | ACTIVE
  | FAILED
deriving DecidableEq, Repr

/-- A chain, tip first: the versions of the blocks from the tip down to
genesis.  `[]` is the null pointer (parent of genesis). -/
abbrev Chain := List Nat

/-- Height of the tip block; the null sentinel `[]` gets height -1
(genesis has height 0, as in CBlockIndex). -/
def height (c : Chain) : Int := (c.length : Int) - 1

/-- CBlockIndex GetAncestor: the ancestor block at exactly the given
height, or null when no block of that height exists below (target
negative or above the tip). -/
def ancestor : Chain → Int → Chain
  | [], _ => []
  | v :: p, t => if height (v :: p) = t then v :: p else ancestor p t

/-- One deployment: the eight accessors of AbstractThresholdConditionChecker.
`condition` is applied to a block version pattern, as in both concrete
checkers (VersionBitsConditionChecker and the fuzz TestConditionChecker),
whose Condition reads only pindex->nVersion. -/
structure Params where
  period : Int
  threshold : Int
  start_height : Int
  timeout_height : Int
  min_activation_height : Int
  lockin_on_timeout : Bool
  condition : Nat → Bool

/-- Modelled from the spec: sentinel start-height value from
consensus/params.h (BIP9Deployment::ALWAYS_ACTIVE), a header that is not
part of the sources here.  The spec directs implementations to use values
outside the valid height range, e.g. the maximum of a signed 32-bit
integer and one less than it. -/
def ALWAYS_ACTIVE : Int := 2147483646

/-- Modelled from the spec: sentinel value from consensus/params.h
(BIP9Deployment::NEVER_ACTIVE), not part of the sources here; chosen
outside the valid height range per the spec. -/
def NEVER_ACTIVE : Int := 2147483647

/-- The signal-counting for-loop in the STARTED case of GetStateFor:
walk `n` blocks down from the tip (n = nPeriod in the source), counting
the blocks whose condition holds.  In the source the walk never reaches
the null pointer because it only runs at period boundaries of height at
least period - 1; walking past `[]` contributes nothing here. -/
def countCond (cfg : Params) : Nat → Chain → Nat
  | 0, _ => 0
  | _ + 1, [] => 0
  | n + 1, v :: p => (if cfg.condition v then 1 else 0) + countCond cfg n p

/-- The switch statement of the forward pass of GetStateFor: the state of
the period that starts at `height c + 1`, given the state `s` of the
previous period.  `c` is the period-boundary previous-block. -/
def stateTransition (cfg : Params) (c : Chain) (s : ThresholdState) : ThresholdState :=
  match s with
  | .DEFINED =>
      if cfg.start_height ≤ height c + 1 then .STARTED else .DEFINED
  | .STARTED =>
      if cfg.threshold ≤ (countCond cfg cfg.period.toNat c : Int) then .LOCKED_IN
      else if cfg.lockin_on_timeout = true ∧ cfg.timeout_height ≤ height c + 1 + cfg.period then
        .MUST_SIGNAL
      else if cfg.timeout_height ≤ height c + 1 then .FAILED
      else .STARTED
  | .MUST_SIGNAL => .LOCKED_IN
  | .LOCKED_IN =>
      if cfg.min_activation_height ≤ height c + 1 then .ACTIVE else .LOCKED_IN
  | .ACTIVE => .ACTIVE
  | .FAILED => .FAILED

/-- The walk-back plus forward-pass of GetStateFor, as a recursion on the
period-boundary previous-block: null is DEFINED; a boundary whose next
height is below the start height is DEFINED (the walk-back optimization);
otherwise the transition is applied to the state of the boundary one
period below, reached through `ancestor p (height p + 1 - period)`, which
for `period ≥ 1` equals the ancestor of `v :: p` at
`height (v :: p) - period` as in the source.  `fuel` bounds the number of
steps; it is always called with the chain length, which suffices because
each step descends strictly. -/
def stateAtF (cfg : Params) : Nat → Chain → ThresholdState
  | _, [] => .DEFINED
  | 0, _ :: _ => .DEFINED
  | fuel + 1, v :: p =>
      if height (v :: p) + 1 < cfg.start_height then .DEFINED
      else stateTransition cfg (v :: p)
        (stateAtF cfg fuel (ancestor p (height p + 1 - cfg.period)))

/-- State of a period-boundary previous-block. -/
def stateAt (cfg : Params) (c : Chain) : ThresholdState := stateAtF cfg c.length c

/-- The period alignment at the top of GetStateFor: a non-null
previous-block is replaced by its ancestor at height
`height - ((height + 1) % period)`, the last block of the previous
period boundary (a height that is a multiple of period, minus 1). -/
def alignPrev (cfg : Params) (c : Chain) : Chain :=
  if c = [] then []
  else ancestor c (height c - ((height c + 1) % cfg.period))

/-- AbstractThresholdConditionChecker::GetStateFor, as a pure function of
the previous-block chain: the never-active and always-active fast paths,
then the period alignment, then the cached walk computed by `stateAt`. -/
def GetStateFor (cfg : Params) (prev : Chain) : ThresholdState :=
  if cfg.start_height = NEVER_ACTIVE ∧ cfg.timeout_height = NEVER_ACTIVE then .DEFINED
  else if cfg.start_height = ALWAYS_ACTIVE then .ACTIVE
  else stateAt cfg (alignPrev cfg prev)

/-- The while loop of GetStateSinceHeightFor: from an aligned boundary,
keep stepping one period down while the ancestor exists and has the same
state; return the next height of the last boundary reached.
`ancestor p (height p + 1 - period)` is the ancestor of `v :: p` at
`height (v :: p) - period`, as in `stateAtF`.  Fuel as in `stateAtF`. -/
def sinceWalkF (cfg : Params) (st : ThresholdState) : Nat → Chain → Int
  | _, [] => 0
  | 0, _ :: _ => 0
  | fuel + 1, v :: p =>
      if ancestor p (height p + 1 - cfg.period) ≠ [] ∧
         GetStateFor cfg (ancestor p (height p + 1 - cfg.period)) = st then
        sinceWalkF cfg st fuel (ancestor p (height p + 1 - cfg.period))
      else height (v :: p) + 1

/-- The since-height walk from a boundary. -/
def sinceWalk (cfg : Params) (st : ThresholdState) (c : Chain) : Int :=
  sinceWalkF cfg st c.length c

/-- AbstractThresholdConditionChecker::GetStateSinceHeightFor: 0 on the
always-active shortcut and when the state is DEFINED; otherwise align the
previous-block to its period boundary and walk back period by period
while the state agrees. -/
def GetStateSinceHeightFor (cfg : Params) (prev : Chain) : Int :=
  if cfg.start_height = ALWAYS_ACTIVE then 0
  else if GetStateFor cfg prev = ThresholdState.DEFINED then 0
  else sinceWalk cfg (GetStateFor cfg prev) (alignPrev cfg prev)

/-- BIP9Stats. -/
structure BIP9Stats where
  period : Int
  threshold : Int
  elapsed : Int
  count : Int
  possible : Bool
deriving DecidableEq, Repr

/-- The while loop of GetStateStatisticsFor: walk down from the tip,
counting condition hits, until reaching the block whose height equals
`stop` (the height of the start-of-period boundary).  In the source the
loop compares heights, not pointers; it stops without counting when the
tip itself is at height `stop`.  Walking to the null sentinel (height -1)
stops likewise. -/
def countToHeight (cfg : Params) (stop : Int) : Chain → Nat
  | [] => 0
  | v :: p =>
      if height (v :: p) = stop then 0
      else (if cfg.condition v then 1 else 0) + countToHeight cfg stop p

/-- AbstractThresholdConditionChecker::GetStateStatisticsFor.  The C++
zero-initializes the stats, so the null input returns elapsed = count = 0
and possible = false. -/
def GetStateStatisticsFor (cfg : Params) (c : Chain) : BIP9Stats :=
  if c = [] then
    { period := cfg.period, threshold := cfg.threshold,
      elapsed := 0, count := 0, possible := false }
  else
    { period := cfg.period, threshold := cfg.threshold,
      elapsed := height c - height (ancestor c (height c - ((height c + 1) % cfg.period))),
      count := (countToHeight cfg (height (ancestor c (height c - ((height c + 1) % cfg.period)))) c : Int),
      possible := decide (cfg.period - cfg.threshold ≥
        (height c - height (ancestor c (height c - ((height c + 1) % cfg.period)))) -
        (countToHeight cfg (height (ancestor c (height c - ((height c + 1) % cfg.period)))) c : Int)) }

/-- VersionBitsConditionChecker::Condition for a given signal bit, on the
32-bit version pattern: the top three bits must equal 001 (the top-bits
guard `(nVersion & 0xE0000000) == 0x20000000`) and the signal bit must be
set (`(nVersion & (1 << bit)) != 0`).  Bit tests are expressed with
division and remainder on the nonnegative bit pattern. -/
def versionBitsCondition (bit : Nat) (v : Nat) : Bool :=
  decide (v / 536870912 % 8 = 1 ∧ v / 2 ^ bit % 2 = 1)

/-! ### Notions taken from the wording of the spec -/

/-- Taken from the wording of the spec (section 4.4): the period of the
block computed for `prev` is the first period in its state, i.e. the
boundary one period below the aligned boundary either does not exist or
carries a different state. -/
def FirstPeriodInState (cfg : Params) (prev : Chain) : Prop :=
  ancestor (alignPrev cfg prev) (height (alignPrev cfg prev) - cfg.period) = [] ∨
  GetStateFor cfg (ancestor (alignPrev cfg prev) (height (alignPrev cfg prev) - cfg.period)) ≠
    GetStateFor cfg prev

instance (cfg : Params) (prev : Chain) : Decidable (FirstPeriodInState cfg prev) := by
  unfold FirstPeriodInState
  infer_instance

/-- The start-of-period boundary of a block, as the spec describes it for
the statistics: the ancestor at height `height - ((height + 1) % period)`. -/
def periodBoundary (cfg : Params) (c : Chain) : Chain :=
  ancestor c (height c - ((height c + 1) % cfg.period))

/-- The number of blocks mined in the current period up to and including
the tip (the blocks strictly after the boundary). -/
def specElapsed (cfg : Params) (c : Chain) : Int :=
  height c - height (periodBoundary cfg c)

/-- The number of blocks strictly after the boundary, up to and including
the tip, whose condition holds. -/
def specCount (cfg : Params) (c : Chain) : Int :=
  (((c.take (specElapsed cfg c).toNat).filter cfg.condition).length : Int)

/-! ### Concrete deployments and chains used in scenarios -/

/-- Scenario S1 of the spec: period 32, threshold 28, bit 0,
min_activation_height 0, lockin_on_timeout false, start 0, timeout
10000. -/
def cfgS1 : Params :=
  { period := 32, threshold := 28, start_height := 0, timeout_height := 10000,
    min_activation_height := 0, lockin_on_timeout := false,
    condition := versionBitsCondition 0 }

/-- Version pattern for a block of scenario S1: 0x20000001 signals,
0x20000000 does not. -/
def verOf (b : Bool) : Nat := if b then 536870913 else 536870912

/-- The first period of scenario S1: 32 non-signalling blocks. -/
def firstPeriodS1 : Chain := List.replicate 32 536870912

/-- One concrete instance of the 96-block chain of scenario S1, tip
first: 32 further (non-signalling) blocks, then a period of 28
signalling followed by 4 non-signalling blocks, then the 32
non-signalling blocks of the first period. -/
def c2chain : Chain :=
  List.replicate 32 536870912 ++
    (List.replicate 28 536870913 ++ List.replicate 4 536870912 ++ List.replicate 32 536870912)

/-- A 41-block chain (tip at height 40, in the middle of its period) of
signalling blocks, used with cfgS1. -/
def c41 : Chain := List.replicate 41 536870913

/-- A small deployment for concrete checks: period 2, threshold 2,
start 0, timeout 100, no minimum activation height, no lock-in on
timeout; a block signals when its version is 1. -/
def cfgW : Params :=
  { period := 2, threshold := 2, start_height := 0, timeout_height := 100,
    min_activation_height := 0, lockin_on_timeout := false,
    condition := fun v => decide (v = 1) }

/-- A small deployment with lockin_on_timeout true: period 2, threshold
2, start 0, timeout 4. -/
def cfgLot : Params :=
  { period := 2, threshold := 2, start_height := 0, timeout_height := 4,
    min_activation_height := 0, lockin_on_timeout := true,
    condition := fun v => decide (v = 1) }

/-- An always-active deployment (paired with a timeout far in the
future, as in the fuzz harness). -/
def cfgAlways : Params :=
  { period := 32, threshold := 28, start_height := ALWAYS_ACTIVE, timeout_height := NEVER_ACTIVE,
    min_activation_height := 0, lockin_on_timeout := false,
    condition := versionBitsCondition 0 }

/-- A never-active deployment: both sentinel heights NEVER_ACTIVE. -/
def cfgNever : Params :=
  { period := 32, threshold := 28, start_height := NEVER_ACTIVE, timeout_height := NEVER_ACTIVE,
    min_activation_height := 0, lockin_on_timeout := false,
    condition := versionBitsCondition 0 }

/-! ### Basic facts about heights and ancestors -/

theorem height_nil : height ([] : Chain) = -1 := rfl

theorem height_cons (v : Nat) (p : Chain) : height (v :: p) = height p + 1 := by
  simp [height]

theorem neg_one_le_height (c : Chain) : -1 ≤ height c := by
  simp [height]

theorem height_nonneg {c : Chain} (h : c ≠ []) : 0 ≤ height c := by
  cases c with
  | nil => exact absurd rfl h
  | cons v p => rw [height_cons]; have := neg_one_le_height p; omega

theorem height_lt_of_ne_nil {c : Chain} (h : c ≠ []) (t : Int) (ht : t < 0) :
    t < height c := lt_of_lt_of_le ht (height_nonneg h)

theorem ancestor_length_le (c : Chain) (t : Int) : (ancestor c t).length ≤ c.length := by
  induction c with
  | nil => simp [ancestor]
  | cons v p ih =>
      rw [ancestor]
      by_cases h : height (v :: p) = t
      · rw [if_pos h]
      · rw [if_neg h]
        exact le_trans ih (by simp)

theorem ancestor_self (c : Chain) : ancestor c (height c) = c := by
  cases c with
  | nil => rfl
  | cons v p => rw [ancestor, if_pos rfl]

theorem height_ancestor_le (c : Chain) (t : Int) : height (ancestor c t) ≤ height c := by
  have := ancestor_length_le c t
  simp [height]; omega

theorem height_ancestor {c : Chain} {t : Int} (h : ancestor c t ≠ []) :
    height (ancestor c t) = t := by
  induction c with
  | nil => exact absurd rfl h
  | cons v p ih =>
      rw [ancestor] at h ⊢
      by_cases he : height (v :: p) = t
      · rw [if_pos he]; exact he
      · rw [if_neg he] at h ⊢; exact ih h

theorem ancestor_ne_nil {c : Chain} {t : Int} (h0 : 0 ≤ t) (hle : t ≤ height c) :
    ancestor c t ≠ [] := by
  induction c with
  | nil => rw [height_nil] at hle; omega
  | cons v p ih =>
      rw [ancestor]
      by_cases he : height (v :: p) = t
      · rw [if_pos he]; simp
      · rw [if_neg he]
        refine ih ?_
        rw [height_cons] at hle he
        omega

theorem ancestor_of_neg {c : Chain} {t : Int} (h : t < 0) : ancestor c t = [] := by
  induction c with
  | nil => rfl
  | cons v p ih =>
      rw [ancestor, if_neg, ih]
      have := height_nonneg (c := v :: p) (by simp)
      omega

theorem ancestor_cons_ne (v : Nat) (p : Chain) {t : Int} (h : height (v :: p) ≠ t) :
    ancestor (v :: p) t = ancestor p t := by
  rw [ancestor, if_neg h]

theorem ancestor_append (a b : Chain) : ancestor (a ++ b) (height b) = b := by
  induction a with
  | nil => simpa using ancestor_self b
  | cons v t ih =>
      rw [List.cons_append, ancestor_cons_ne, ih]
      rw [height_cons]
      have h1 : b.length ≤ (t ++ b).length := by simp
      simp only [height] at *
      simp at h1 ⊢
      omega

/-! ### Fuel irrelevance and unfolding equations -/

theorem stateAtF_succ (cfg : Params) (fuel : Nat) (v : Nat) (p : Chain) :
    stateAtF cfg (fuel + 1) (v :: p) =
      if height (v :: p) + 1 < cfg.start_height then .DEFINED
      else stateTransition cfg (v :: p)
        (stateAtF cfg fuel (ancestor p (height p + 1 - cfg.period))) := rfl

theorem stateAtF_irrel (cfg : Params) :
    ∀ (f f2 : Nat) (c : Chain), c.length ≤ f → c.length ≤ f2 →
      stateAtF cfg f c = stateAtF cfg f2 c := by
  intro f
  induction f with
  | zero =>
      intro f2 c h1 _
      have hc : c = [] := by
        cases c with
        | nil => rfl
        | cons v p => simp at h1
      subst hc
      cases f2 <;> rfl
  | succ f ih =>
      intro f2 c h1 h2
      cases c with
      | nil => cases f2 <;> rfl
      | cons v p =>
          cases f2 with
          | zero => simp at h2
          | succ f2 =>
              rw [stateAtF_succ, stateAtF_succ]
              by_cases hg : height (v :: p) + 1 < cfg.start_height
              · rw [if_pos hg, if_pos hg]
              · rw [if_neg hg, if_neg hg]
                refine congrArg _ (ih f2 _ ?_ ?_)
                · exact le_trans (ancestor_length_le p _) (by simpa using Nat.le_of_succ_le_succ h1)
                · exact le_trans (ancestor_length_le p _) (by simpa using Nat.le_of_succ_le_succ h2)

theorem stateAt_nil (cfg : Params) : stateAt cfg [] = .DEFINED := rfl

theorem stateAt_cons (cfg : Params) (v : Nat) (p : Chain) :
    stateAt cfg (v :: p) =
      if height (v :: p) + 1 < cfg.start_height then .DEFINED
      else stateTransition cfg (v :: p)
        (stateAt cfg (ancestor p (height p + 1 - cfg.period))) := by
  show stateAtF cfg (p.length + 1) (v :: p) = _
  rw [stateAtF_succ]
  by_cases hg : height (v :: p) + 1 < cfg.start_height
  · rw [if_pos hg, if_pos hg]
  · rw [if_neg hg, if_neg hg]
    exact congrArg _ (stateAtF_irrel cfg p.length _ _ (ancestor_length_le p _) le_rfl)

theorem sinceWalkF_succ (cfg : Params) (st : ThresholdState) (fuel : Nat) (v : Nat) (p : Chain) :
    sinceWalkF cfg st (fuel + 1) (v :: p) =
      if ancestor p (height p + 1 - cfg.period) ≠ [] ∧
         GetStateFor cfg (ancestor p (height p + 1 - cfg.period)) = st then
        sinceWalkF cfg st fuel (ancestor p (height p + 1 - cfg.period))
      else height (v :: p) + 1 := rfl

theorem sinceWalkF_irrel (cfg : Params) (st : ThresholdState) :
    ∀ (f f2 : Nat) (c : Chain), c.length ≤ f → c.length ≤ f2 →
      sinceWalkF cfg st f c = sinceWalkF cfg st f2 c := by
  intro f
  induction f with
  | zero =>
      intro f2 c h1 _
      have hc : c = [] := by
        cases c with
        | nil => rfl
        | cons v p => simp at h1
      subst hc
      cases f2 <;> rfl
  | succ f ih =>
      intro f2 c h1 h2
      cases c with
      | nil => cases f2 <;> rfl
      | cons v p =>
          cases f2 with
          | zero => simp at h2
          | succ f2 =>
              rw [sinceWalkF_succ, sinceWalkF_succ]
              by_cases hg : ancestor p (height p + 1 - cfg.period) ≠ [] ∧
                  GetStateFor cfg (ancestor p (height p + 1 - cfg.period)) = st
              · rw [if_pos hg, if_pos hg]
                refine ih f2 _ ?_ ?_
                · exact le_trans (ancestor_length_le p _) (by simpa using Nat.le_of_succ_le_succ h1)
                · exact le_trans (ancestor_length_le p _) (by simpa using Nat.le_of_succ_le_succ h2)
              · rw [if_neg hg, if_neg hg]

theorem sinceWalk_cons (cfg : Params) (st : ThresholdState) (v : Nat) (p : Chain) :
    sinceWalk cfg st (v :: p) =
      if ancestor p (height p + 1 - cfg.period) ≠ [] ∧
         GetStateFor cfg (ancestor p (height p + 1 - cfg.period)) = st then
        sinceWalk cfg st (ancestor p (height p + 1 - cfg.period))
      else height (v :: p) + 1 := by
  show sinceWalkF cfg st (p.length + 1) (v :: p) = _
  rw [sinceWalkF_succ]
  by_cases hg : ancestor p (height p + 1 - cfg.period) ≠ [] ∧
      GetStateFor cfg (ancestor p (height p + 1 - cfg.period)) = st
  · rw [if_pos hg, if_pos hg]
    exact sinceWalkF_irrel cfg st p.length _ _ (ancestor_length_le p _) le_rfl
  · rw [if_neg hg, if_neg hg]

/-! ### Counting loops versus list operations -/

theorem take_append_self (a b : Chain) : (a ++ b).take a.length = a := by
  induction a with
  | nil => rfl
  | cons v t ih => simp [ih]

theorem countCond_eq_take_filter (cfg : Params) :
    ∀ (n : Nat) (c : Chain),
      countCond cfg n c = ((c.take n).filter cfg.condition).length := by
  intro n
  induction n with
  | zero => intro c; rfl
  | succ n ih =>
      intro c
      cases c with
      | nil => rfl
      | cons v p =>
          rw [countCond, List.take_succ_cons, List.filter_cons]
          by_cases hv : cfg.condition v
          · rw [if_pos hv, if_pos hv, List.length_cons, ih]; omega
          · rw [if_neg hv, if_neg (by simpa using hv), ih]
            omega

theorem countToHeight_eq_take_filter (cfg : Params) :
    ∀ (c : Chain) (stop : Int), -1 ≤ stop → stop ≤ height c →
      countToHeight cfg stop c =
        ((c.take (height c - stop).toNat).filter cfg.condition).length := by
  intro c
  induction c with
  | nil =>
      intro stop h1 h2
      rw [height_nil] at h2
      have : stop = -1 := le_antisymm h2 h1
      subst this
      rfl
  | cons v p ih =>
      intro stop h1 h2
      rw [countToHeight]
      by_cases he : height (v :: p) = stop
      · rw [if_pos he, he, sub_self]
        rfl
      · rw [if_neg he]
        have hple : stop ≤ height p := by
          rw [height_cons] at h2 he; omega
        have harith : (height (v :: p) - stop).toNat = (height p - stop).toNat + 1 := by
          rw [height_cons]; omega
        rw [harith, List.take_succ_cons, List.filter_cons]
        by_cases hv : cfg.condition v
        · rw [if_pos hv, if_pos hv, List.length_cons, ih stop h1 hple]; omega
        · rw [if_neg hv, if_neg (by simpa using hv), ih stop h1 hple]
          omega

/-! ### Alignment -/

theorem alignPrev_nil (cfg : Params) : alignPrev cfg [] = [] := rfl

theorem alignPrev_of_aligned (cfg : Params) {c : Chain}
    (h : (height c + 1) % cfg.period = 0) : alignPrev cfg c = c := by
  unfold alignPrev
  by_cases hc : c = []
  · rw [if_pos hc, hc]
  · rw [if_neg hc, h, sub_zero, ancestor_self]

theorem height_alignPrev_le (cfg : Params) (c : Chain) :
    height (alignPrev cfg c) ≤ height c := by
  unfold alignPrev
  by_cases hc : c = []
  · rw [if_pos hc, hc]
  · rw [if_neg hc]; exact height_ancestor_le c _

theorem alignPrev_length_le (cfg : Params) (c : Chain) :
    (alignPrev cfg c).length ≤ c.length := by
  unfold alignPrev
  by_cases hc : c = []
  · rw [if_pos hc, hc]
  · rw [if_neg hc]; exact ancestor_length_le c _

/-- The aligned boundary of a non-null block sits at a height that is a
multiple of the period, minus one (period positive). -/
theorem alignPrev_aligned (cfg : Params) {c : Chain}
    (hne : alignPrev cfg c ≠ []) :
    (height (alignPrev cfg c) + 1) % cfg.period = 0 := by
  unfold alignPrev at hne ⊢
  by_cases hc : c = []
  · rw [if_pos hc] at hne; exact absurd rfl hne
  · rw [if_neg hc] at hne ⊢
    rw [height_ancestor hne]
    have h0 : (0 : Int) ≤ height c + 1 := by have := height_nonneg hc; omega
    have : height c - (height c + 1) % cfg.period + 1 = (height c + 1) - (height c + 1) % cfg.period := by
      ring
    rw [this, Int.sub_emod, Int.emod_emod_of_dvd _ dvd_rfl, sub_self, Int.zero_emod]

/-- On a configuration that is neither never-active nor always-active,
GetStateFor is the aligned boundary state. -/
theorem GetStateFor_eq_stateAt (cfg : Params) (prev : Chain)
    (hN : ¬(cfg.start_height = NEVER_ACTIVE ∧ cfg.timeout_height = NEVER_ACTIVE))
    (hA : cfg.start_height ≠ ALWAYS_ACTIVE) :
    GetStateFor cfg prev = stateAt cfg (alignPrev cfg prev) := by
  unfold GetStateFor
  rw [if_neg hN, if_neg hA]

/-- A boundary in state STARTED was not cut off by the start-height
optimization: its next height is at least the start height. -/
theorem start_le_of_started (cfg : Params) {c : Chain}
    (h : stateAt cfg c = .STARTED) : cfg.start_height ≤ height c + 1 := by
  cases c with
  | nil => rw [stateAt_nil] at h; exact absurd h (by decide)
  | cons v p =>
      rw [stateAt_cons] at h
      by_cases hg : height (v :: p) + 1 < cfg.start_height
      · rw [if_pos hg] at h; exact absurd h (by decide)
      · omega

theorem stateAt_ne_nil_of_ne_defined (cfg : Params) {c : Chain}
    (h : stateAt cfg c ≠ .DEFINED) : c ≠ [] := by
  intro hc
  subst hc
  exact h (stateAt_nil cfg)

/-! ### Stepping over one appended period -/

/-- Appending exactly one period of blocks on top of a chain: the state
of the new boundary is the transition applied to the state of the old
one. -/
theorem stateAt_append_period (cfg : Params) (a b : Chain)
    (ha : (a.length : Int) = cfg.period) (hper : 1 ≤ cfg.period) :
    stateAt cfg (a ++ b) =
      if height (a ++ b) + 1 < cfg.start_height then .DEFINED
      else stateTransition cfg (a ++ b) (stateAt cfg b) := by
  cases a with
  | nil => simp at ha; omega
  | cons v t =>
      rw [List.cons_append, stateAt_cons]
      have hanc : ancestor (t ++ b) (height (t ++ b) + 1 - cfg.period) = b := by
        have hlen : (t.length : Int) + 1 = cfg.period := by
          simpa using ha
        have : height (t ++ b) + 1 - cfg.period = height b := by
          simp only [height, List.length_append]
          push_cast
          omega
        rw [this, ancestor_append]
      rw [hanc]

/-- Appending exactly one period of blocks on top of a chain: the
since-height walk takes one step down to the old boundary or stops. -/
theorem sinceWalk_append_period (cfg : Params) (st : ThresholdState) (a b : Chain)
    (ha : (a.length : Int) = cfg.period) (hper : 1 ≤ cfg.period) :
    sinceWalk cfg st (a ++ b) =
      if b ≠ [] ∧ GetStateFor cfg b = st then sinceWalk cfg st b
      else height (a ++ b) + 1 := by
  cases a with
  | nil => simp at ha; omega
  | cons v t =>
      rw [List.cons_append, sinceWalk_cons]
      have hanc : ancestor (t ++ b) (height (t ++ b) + 1 - cfg.period) = b := by
        have hlen : (t.length : Int) + 1 = cfg.period := by
          simpa using ha
        have : height (t ++ b) + 1 - cfg.period = height b := by
          simp only [height, List.length_append]
          push_cast
          omega
        rw [this, ancestor_append]
      rw [hanc]

/-! ### Invariants of the boundary states -/

/-- A boundary can only be ACTIVE when the period starting above it
begins at or after the minimum activation height. -/
theorem stateAt_active_min_aux (cfg : Params) :
    ∀ (n : Nat) (c : Chain), c.length ≤ n → stateAt cfg c = .ACTIVE →
      cfg.min_activation_height ≤ height c + 1 := by
  intro n
  induction n with
  | zero =>
      intro c h1 hst
      have hc : c = [] := by
        cases c with
        | nil => rfl
        | cons v p => simp at h1
      subst hc
      rw [stateAt_nil] at hst
      exact absurd hst (by decide)
  | succ n ih =>
      intro c h1 hst
      cases c with
      | nil => rw [stateAt_nil] at hst; exact absurd hst (by decide)
      | cons v p =>
          rw [stateAt_cons] at hst
          by_cases hg : height (v :: p) + 1 < cfg.start_height
          · rw [if_pos hg] at hst; exact absurd hst (by decide)
          · rw [if_neg hg] at hst
            have hlen : (ancestor p (height p + 1 - cfg.period)).length ≤ n :=
              le_trans (ancestor_length_le p _) (by simpa using Nat.le_of_succ_le_succ h1)
            have hhq : height (ancestor p (height p + 1 - cfg.period)) ≤ height p :=
              height_ancestor_le p _
            cases hsq : stateAt cfg (ancestor p (height p + 1 - cfg.period)) with
            | DEFINED =>
                rw [hsq] at hst
                simp only [stateTransition] at hst
                by_cases hd : cfg.start_height ≤ height (v :: p) + 1
                · rw [if_pos hd] at hst; exact absurd hst (by decide)
                · rw [if_neg hd] at hst; exact absurd hst (by decide)
            | STARTED =>
                rw [hsq] at hst
                simp only [stateTransition] at hst
                split at hst
                · exact absurd hst (by decide)
                · split at hst
                  · exact absurd hst (by decide)
                  · split at hst
                    · exact absurd hst (by decide)
                    · exact absurd hst (by decide)
            | MUST_SIGNAL =>
                rw [hsq] at hst
                simp only [stateTransition] at hst
                exact absurd hst (by decide)
            | LOCKED_IN =>
                rw [hsq] at hst
                simp only [stateTransition] at hst
                by_cases hd : cfg.min_activation_height ≤ height (v :: p) + 1
                · exact hd
                · rw [if_neg hd] at hst; exact absurd hst (by decide)
            | ACTIVE =>
                have hmin := ih _ hlen hsq
                rw [height_cons]
                omega
            | FAILED =>
                rw [hsq] at hst
                simp only [stateTransition] at hst
                exact absurd hst (by decide)

/-- With lock-in on timeout, no boundary is ever FAILED: whenever the
timeout condition fires, the MUST_SIGNAL condition fires first. -/
theorem stateAt_ne_failed_aux (cfg : Params) (hlot : cfg.lockin_on_timeout = true)
    (hper : 1 ≤ cfg.period) :
    ∀ (n : Nat) (c : Chain), c.length ≤ n → stateAt cfg c ≠ .FAILED := by
  intro n
  induction n with
  | zero =>
      intro c h1
      have hc : c = [] := by
        cases c with
        | nil => rfl
        | cons v p => simp at h1
      subst hc
      rw [stateAt_nil]
      decide
  | succ n ih =>
      intro c h1
      cases c with
      | nil => rw [stateAt_nil]; decide
      | cons v p =>
          rw [stateAt_cons]
          by_cases hg : height (v :: p) + 1 < cfg.start_height
          · rw [if_pos hg]; decide
          · rw [if_neg hg]
            have hlen : (ancestor p (height p + 1 - cfg.period)).length ≤ n :=
              le_trans (ancestor_length_le p _) (by simpa using Nat.le_of_succ_le_succ h1)
            cases hsq : stateAt cfg (ancestor p (height p + 1 - cfg.period)) with
            | DEFINED =>
                simp only [stateTransition]
                by_cases hd : cfg.start_height ≤ height (v :: p) + 1
                · rw [if_pos hd]; decide
                · rw [if_neg hd]; decide
            | STARTED =>
                simp only [stateTransition]
                by_cases h1c : cfg.threshold ≤ (countCond cfg cfg.period.toNat (v :: p) : Int)
                · rw [if_pos h1c]; decide
                · rw [if_neg h1c]
                  by_cases h2c : cfg.lockin_on_timeout = true ∧
                      cfg.timeout_height ≤ height (v :: p) + 1 + cfg.period
                  · rw [if_pos h2c]; decide
                  · rw [if_neg h2c]
                    have h3c : ¬ cfg.timeout_height ≤ height (v :: p) + 1 := by
                      intro h3
                      exact h2c ⟨hlot, by omega⟩
                    rw [if_neg h3c]
                    decide
            | MUST_SIGNAL => simp only [stateTransition]; decide
            | LOCKED_IN =>
                simp only [stateTransition]
                by_cases hd : cfg.min_activation_height ≤ height (v :: p) + 1
                · rw [if_pos hd]; decide
                · rw [if_neg hd]; decide
            | ACTIVE => simp only [stateTransition]; decide
            | FAILED => exact absurd hsq (ih _ hlen)

/-- Behaviour of the since-height walk on an aligned non-null boundary:
the result is period-aligned, nonnegative, at most the next height of the
boundary, and equals that next height exactly when the boundary one
period below does not exist or differs in state. -/
theorem sinceWalk_spec (cfg : Params) (st : ThresholdState) (hper : 1 ≤ cfg.period) :
    ∀ (n : Nat) (c : Chain), c.length ≤ n → c ≠ [] → (height c + 1) % cfg.period = 0 →
      sinceWalk cfg st c % cfg.period = 0 ∧
      0 ≤ sinceWalk cfg st c ∧
      sinceWalk cfg st c ≤ height c + 1 ∧
      (sinceWalk cfg st c = height c + 1 ↔
        (ancestor c (height c - cfg.period) = [] ∨
          GetStateFor cfg (ancestor c (height c - cfg.period)) ≠ st)) := by
  intro n
  induction n with
  | zero =>
      intro c h1 hne _
      exact absurd (by cases c with
        | nil => rfl
        | cons v p => simp at h1) hne
  | succ n ih =>
      intro c h1 hne halign
      cases c with
      | nil => exact absurd rfl hne
      | cons v p =>
          have hanc_eq : ancestor (v :: p) (height (v :: p) - cfg.period) =
              ancestor p (height p + 1 - cfg.period) := by
            rw [ancestor_cons_ne v p (by omega), height_cons]
          rw [sinceWalk_cons, hanc_eq]
          by_cases hgd : ancestor p (height p + 1 - cfg.period) ≠ [] ∧
              GetStateFor cfg (ancestor p (height p + 1 - cfg.period)) = st
          · rw [if_pos hgd]
            have hq_ne := hgd.1
            have hqh : height (ancestor p (height p + 1 - cfg.period)) =
                height p + 1 - cfg.period := height_ancestor hq_ne
            have hq_align : (height (ancestor p (height p + 1 - cfg.period)) + 1) % cfg.period = 0 := by
              rw [hqh]
              have : height p + 1 - cfg.period + 1 = (height (v :: p) + 1) - cfg.period := by
                rw [height_cons]; ring
              rw [this, Int.sub_emod, halign, Int.emod_self, sub_zero, Int.zero_emod]
            have hqlen : (ancestor p (height p + 1 - cfg.period)).length ≤ n :=
              le_trans (ancestor_length_le p _) (by simpa using Nat.le_of_succ_le_succ h1)
            obtain ⟨ih1, ih2, ih3, _⟩ := ih _ hqlen hq_ne hq_align
            refine ⟨ih1, ih2, ?_, ?_⟩
            · rw [height_cons]
              omega
            · constructor
              · intro hres
                rw [height_cons] at hres
                omega
              · intro hor
                rcases hor with hor | hor
                · exact absurd hor hq_ne
                · exact absurd hgd.2 hor
          · rw [if_neg hgd]
            rw [not_and_or, not_not] at hgd
            have h0 : 0 ≤ height (v :: p) := height_nonneg hne
            refine ⟨halign, by omega, le_refl _, ?_⟩
            exact ⟨fun _ => hgd, fun _ => rfl⟩

/-! ### Claims -/

/-- C10: GetStateStatisticsFor applied to the null sentinel returns
exactly the configured period and threshold with elapsed = 0, count = 0
and possible = false (the zero-initialized stats), deterministically. -/
theorem stats_none_value (cfg : Params) :
    GetStateStatisticsFor cfg [] =
      { period := cfg.period, threshold := cfg.threshold,
        elapsed := 0, count := 0, possible := false } := rfl

/-- C6: the sentinel fast paths.  If start_height = ALWAYS_ACTIVE, every
previous-block (the null sentinel included) yields state ACTIVE and
since-height 0, regardless of the chain; if both start_height and
timeout_height equal NEVER_ACTIVE, every previous-block yields state
DEFINED and since-height 0. -/
theorem sentinel_fast_paths (cfg : Params) (prev : Chain) :
    (cfg.start_height = ALWAYS_ACTIVE →
      GetStateFor cfg prev = .ACTIVE ∧ GetStateSinceHeightFor cfg prev = 0) ∧
    (cfg.start_height = NEVER_ACTIVE ∧ cfg.timeout_height = NEVER_ACTIVE →
      GetStateFor cfg prev = .DEFINED ∧ GetStateSinceHeightFor cfg prev = 0) := by
  constructor
  · intro hA
    constructor
    · unfold GetStateFor
      rw [if_neg, if_pos hA]
      intro hN
      rw [hA] at hN
      exact absurd hN.1 (by decide)
    · unfold GetStateSinceHeightFor
      rw [if_pos hA]
  · intro hN
    have hstate : GetStateFor cfg prev = .DEFINED := by
      unfold GetStateFor
      rw [if_pos hN]
    refine ⟨hstate, ?_⟩
    unfold GetStateSinceHeightFor
    rw [if_neg, if_pos hstate]
    intro hA
    rw [hN.1] at hA
    exact absurd hA (by decide)

/-- C3: period stability.  The state computed for any previous-block
equals the state computed for its period-boundary previous-block, the
ancestor at height `height - ((height + 1) % period)`; hence all blocks
sharing a first-of-period block share their state. -/
theorem period_stability (cfg : Params) (prev : Chain) (_hper : 1 ≤ cfg.period) :
    GetStateFor cfg prev =
      GetStateFor cfg (ancestor prev (height prev - ((height prev + 1) % cfg.period))) := by
  by_cases hN : cfg.start_height = NEVER_ACTIVE ∧ cfg.timeout_height = NEVER_ACTIVE
  · unfold GetStateFor
    rw [if_pos hN, if_pos hN]
  by_cases hA : cfg.start_height = ALWAYS_ACTIVE
  · unfold GetStateFor
    rw [if_neg hN, if_neg hN, if_pos hA, if_pos hA]
  rw [GetStateFor_eq_stateAt cfg prev hN hA, GetStateFor_eq_stateAt cfg _ hN hA]
  by_cases hprev : prev = []
  · subst hprev
    simp [alignPrev, ancestor]
  · have hP : alignPrev cfg prev =
        ancestor prev (height prev - ((height prev + 1) % cfg.period)) := by
      unfold alignPrev
      rw [if_neg hprev]
    rw [← hP]
    by_cases hPnil : alignPrev cfg prev = []
    · rw [hPnil, alignPrev_nil]
    · rw [alignPrev_of_aligned cfg (alignPrev_aligned cfg hPnil)]

/-- C9: on a configuration that is neither always-active nor
never-active, every block at a height strictly below the period length
has state DEFINED (its period aligns to the null sentinel), even when
start_height is 0; consequently no block below height period can be
STARTED, so the earliest STARTED height is the period length.  The block
computed for `prev` sits at height `height prev + 1`. -/
theorem early_blocks_defined (cfg : Params) (prev : Chain) (_hper : 1 ≤ cfg.period)
    (hN : ¬(cfg.start_height = NEVER_ACTIVE ∧ cfg.timeout_height = NEVER_ACTIVE))
    (hA : cfg.start_height ≠ ALWAYS_ACTIVE) :
    (height prev + 2 ≤ cfg.period → GetStateFor cfg prev = .DEFINED) ∧
    (GetStateFor cfg prev = .STARTED → cfg.period ≤ height prev + 1) := by
  rw [GetStateFor_eq_stateAt cfg prev hN hA]
  constructor
  · intro hle
    by_cases hprev : prev = []
    · subst hprev
      rw [alignPrev_nil, stateAt_nil]
    · have h0 : 0 ≤ height prev := height_nonneg hprev
      have hmod : (height prev + 1) % cfg.period = height prev + 1 :=
        Int.emod_eq_of_lt (by omega) (by omega)
      unfold alignPrev
      rw [if_neg hprev, hmod]
      have hneg : height prev - (height prev + 1) = -1 := by ring
      rw [hneg, ancestor_of_neg (by omega), stateAt_nil]
  · intro hst
    have hPne : alignPrev cfg prev ≠ [] :=
      stateAt_ne_nil_of_ne_defined cfg (by rw [hst]; decide)
    have halign := alignPrev_aligned cfg hPne
    have h0 : 0 ≤ height (alignPrev cfg prev) := height_nonneg hPne
    have hdvd : cfg.period ∣ (height (alignPrev cfg prev) + 1) :=
      Int.dvd_of_emod_eq_zero halign
    have hle : cfg.period ≤ height (alignPrev cfg prev) + 1 := Int.le_of_dvd (by omega) hdvd
    have := height_alignPrev_le cfg prev
    omega

/-- C5: min-activation guarantee.  On a configuration with
start_height distinct from ALWAYS_ACTIVE, whenever the state computed
for `prev` is ACTIVE, the computed block (at height `height prev + 1`)
is at or above the minimum activation height; so no block strictly below
min_activation_height is ACTIVE, and the LOCKED_IN to ACTIVE transition
happens only at a period starting at or above it. -/
theorem min_activation_guarantee (cfg : Params) (prev : Chain)
    (hA : cfg.start_height ≠ ALWAYS_ACTIVE)
    (hst : GetStateFor cfg prev = .ACTIVE) :
    cfg.min_activation_height ≤ height prev + 1 := by
  by_cases hN : cfg.start_height = NEVER_ACTIVE ∧ cfg.timeout_height = NEVER_ACTIVE
  · unfold GetStateFor at hst
    rw [if_pos hN] at hst
    exact absurd hst (by decide)
  · rw [GetStateFor_eq_stateAt cfg prev hN hA] at hst
    have h := stateAt_active_min_aux cfg (alignPrev cfg prev).length _ le_rfl hst
    have := height_alignPrev_le cfg prev
    omega

/-- C8: with lockin_on_timeout true and period at least 1, the FAILED
state is unreachable: whenever the FAILED guard holds in the STARTED
case, the MUST_SIGNAL guard holds as well and is checked first, and
MUST_SIGNAL moves unconditionally to LOCKED_IN. -/
theorem lot_no_failed (cfg : Params) (prev : Chain)
    (hlot : cfg.lockin_on_timeout = true) (hper : 1 ≤ cfg.period) :
    GetStateFor cfg prev ≠ .FAILED := by
  by_cases hN : cfg.start_height = NEVER_ACTIVE ∧ cfg.timeout_height = NEVER_ACTIVE
  · unfold GetStateFor
    rw [if_pos hN]
    decide
  by_cases hA : cfg.start_height = ALWAYS_ACTIVE
  · unfold GetStateFor
    rw [if_neg hN, if_pos hA]
    decide
  rw [GetStateFor_eq_stateAt cfg prev hN hA]
  exact stateAt_ne_failed_aux cfg hlot hper (alignPrev cfg prev).length _ le_rfl

/-- C1: the STARTED transition of the forward pass.  If the previous
boundary is STARTED, the state of the next boundary `v :: p` is decided
by the count of condition-holding blocks among the exactly period blocks
ending at `v :: p` inclusive (walking predecessors): LOCKED_IN when the
count reaches the threshold; otherwise MUST_SIGNAL when lock-in on
timeout is set and `height + period` reaches the timeout; otherwise
FAILED when `height` reaches the timeout; otherwise STARTED.  In
particular the boundary is LOCKED_IN exactly when the threshold was
met: the threshold wins over the timeout in the same period. -/
theorem started_transition_characterization (cfg : Params) (v : Nat) (p : Chain)
    (_hper : 1 ≤ cfg.period)
    (hprev : stateAt cfg (ancestor p (height p + 1 - cfg.period)) = .STARTED) :
    (stateAt cfg (v :: p) =
      if cfg.threshold ≤ ((((v :: p).take cfg.period.toNat).filter cfg.condition).length : Int)
      then ThresholdState.LOCKED_IN
      else if cfg.lockin_on_timeout = true ∧
          cfg.timeout_height ≤ height (v :: p) + 1 + cfg.period
      then ThresholdState.MUST_SIGNAL
      else if cfg.timeout_height ≤ height (v :: p) + 1 then ThresholdState.FAILED
      else ThresholdState.STARTED) ∧
    (stateAt cfg (v :: p) = .LOCKED_IN ↔
      cfg.threshold ≤ ((((v :: p).take cfg.period.toNat).filter cfg.condition).length : Int)) := by
  have hanc_le : height (ancestor p (height p + 1 - cfg.period)) ≤ height p :=
    height_ancestor_le p _
  have hstart := start_le_of_started cfg hprev
  have hg : ¬(height (v :: p) + 1 < cfg.start_height) := by
    rw [height_cons]
    omega
  have heq : stateAt cfg (v :: p) = stateTransition cfg (v :: p) .STARTED := by
    rw [stateAt_cons, if_neg hg, hprev]
  have hcount := countCond_eq_take_filter cfg cfg.period.toNat (v :: p)
  constructor
  · rw [heq]
    simp only [stateTransition]
    rw [hcount]
  · rw [heq]
    simp only [stateTransition]
    rw [hcount]
    by_cases h1c : cfg.threshold ≤
        ((((v :: p).take cfg.period.toNat).filter cfg.condition).length : Int)
    · rw [if_pos h1c]
      exact ⟨fun _ => h1c, fun _ => rfl⟩
    · rw [if_neg h1c]
      constructor
      · intro h
        split at h
        · exact absurd h (by decide)
        · split at h
          · exact absurd h (by decide)
          · exact absurd h (by decide)
      · intro h
        exact absurd h h1c

/-- C7: statistics correctness.  For every non-null block, the returned
stats carry the configured period and threshold, elapsed is the height
distance to the start-of-period boundary (the ancestor at height
`height - ((height + 1) % period)`), count is the number of
condition-holding blocks strictly after that boundary up to and
including the block, and possible is `period - threshold ≥ elapsed -
count`. -/
theorem stats_correct (cfg : Params) (c : Chain) (_hper : 1 ≤ cfg.period) (hc : c ≠ []) :
    GetStateStatisticsFor cfg c =
      { period := cfg.period, threshold := cfg.threshold,
        elapsed := specElapsed cfg c, count := specCount cfg c,
        possible := decide (cfg.period - cfg.threshold ≥ specElapsed cfg c - specCount cfg c) } := by
  have hb_le : height (ancestor c (height c - ((height c + 1) % cfg.period))) ≤ height c :=
    height_ancestor_le c _
  have hb_ge : -1 ≤ height (ancestor c (height c - ((height c + 1) % cfg.period))) :=
    neg_one_le_height _
  have hcount := countToHeight_eq_take_filter cfg c
    (height (ancestor c (height c - ((height c + 1) % cfg.period)))) hb_ge hb_le
  unfold GetStateStatisticsFor
  rw [if_neg hc]
  unfold specCount specElapsed periodBoundary
  rw [hcount]

/-- C4 (counterexample): for the S1 deployment and a 41-block chain of
signalling blocks (the computed block at height 41 sits in the middle of
the first STARTED period), the since-height is 32 although the period of
the computed block is the first period in its state, so the claimed
equivalence "since equals block_height + 1 iff the current period is the
first period in its state" fails, whether block_height means the height
of the computed block (41) or of the previous block (40). -/
theorem since_postconditions_counterexample :
    FirstPeriodInState cfgS1 c41 ∧
    GetStateFor cfgS1 c41 = .STARTED ∧
    GetStateSinceHeightFor cfgS1 c41 = 32 ∧
    GetStateSinceHeightFor cfgS1 c41 ≠ height c41 + 1 + 1 ∧
    GetStateSinceHeightFor cfgS1 c41 ≠ height c41 + 1 := by
  decide

/-- C4 (amended): the since-height is always a multiple of the period
(the ALWAYS_ACTIVE and DEFINED shortcuts return 0, itself a multiple),
lies in [0, block_height + 1] for block_height the height of the computed
block (`height prev + 1`), and — outside the two shortcuts — equals the
height of the first block of the current period (the aligned boundary
height plus one) iff the current period is the first period in its
state. -/
theorem since_postconditions_amended (cfg : Params) (prev : Chain) (hper : 1 ≤ cfg.period) :
    GetStateSinceHeightFor cfg prev % cfg.period = 0 ∧
    0 ≤ GetStateSinceHeightFor cfg prev ∧
    GetStateSinceHeightFor cfg prev ≤ (height prev + 1) + 1 ∧
    ((cfg.start_height ≠ ALWAYS_ACTIVE ∧ GetStateFor cfg prev ≠ .DEFINED) →
      (GetStateSinceHeightFor cfg prev = height (alignPrev cfg prev) + 1 ↔
        FirstPeriodInState cfg prev)) := by
  by_cases hA : cfg.start_height = ALWAYS_ACTIVE
  · have hz : GetStateSinceHeightFor cfg prev = 0 := by
      unfold GetStateSinceHeightFor
      rw [if_pos hA]
    rw [hz]
    have := neg_one_le_height prev
    exact ⟨Int.zero_emod _, le_refl 0, by omega, fun h => absurd hA h.1⟩
  by_cases hD : GetStateFor cfg prev = .DEFINED
  · have hz : GetStateSinceHeightFor cfg prev = 0 := by
      unfold GetStateSinceHeightFor
      rw [if_neg hA, if_pos hD]
    rw [hz]
    have := neg_one_le_height prev
    exact ⟨Int.zero_emod _, le_refl 0, by omega, fun h => absurd hD h.2⟩
  have hsw : GetStateSinceHeightFor cfg prev =
      sinceWalk cfg (GetStateFor cfg prev) (alignPrev cfg prev) := by
    unfold GetStateSinceHeightFor
    rw [if_neg hA, if_neg hD]
  have hN : ¬(cfg.start_height = NEVER_ACTIVE ∧ cfg.timeout_height = NEVER_ACTIVE) := by
    intro hN
    apply hD
    unfold GetStateFor
    rw [if_pos hN]
  have hstate := GetStateFor_eq_stateAt cfg prev hN hA
  have hPne : alignPrev cfg prev ≠ [] := by
    intro h
    apply hD
    rw [hstate, h, stateAt_nil]
  have halign := alignPrev_aligned cfg hPne
  obtain ⟨h1, h2, h3, h4⟩ := sinceWalk_spec cfg (GetStateFor cfg prev) hper
    (alignPrev cfg prev).length _ le_rfl hPne halign
  rw [hsw]
  refine ⟨h1, h2, ?_, ?_⟩
  · have := height_alignPrev_le cfg prev
    omega
  · intro _
    unfold FirstPeriodInState
    exact h4

/-- In scenario S1, a block built from a signalling flag satisfies the
bit-0 condition exactly when the flag is set. -/
theorem filter_map_verOf (l : List Bool) :
    ((l.map verOf).filter (versionBitsCondition 0)).length =
      (l.filter (fun b => b)).length := by
  induction l with
  | nil => rfl
  | cons b t ih =>
      cases b
      · have hf : versionBitsCondition 0 (verOf false) = false := by decide
        simp [List.filter_cons, hf, ih]
      · have ht : versionBitsCondition 0 (verOf true) = true := by decide
        simp [List.filter_cons, ht, ih]

/-- C2 (counterexample): on the concrete S1 chain (32 non-signalling
blocks, then 28 signalling and 4 non-signalling, then 32 further
blocks), the query at block 31 gives state STARTED as claimed but
since-height 32, not 0: the first period of the chain is DEFINED (it
aligns to the null sentinel), so STARTED begins at height 32. -/
theorem scenarioS1_since_counterexample :
    GetStateFor cfgS1 (ancestor c2chain 31) = .STARTED ∧
    GetStateSinceHeightFor cfgS1 (ancestor c2chain 31) = 32 ∧
    GetStateSinceHeightFor cfgS1 (ancestor c2chain 31) ≠ 0 := by
  decide

/-- C2 (amended): scenario S1 with the since-heights the code computes.
For any order of the 28 signalling and 4 non-signalling blocks of the
second period and any versions of the 32 further blocks: the query at
block 31 gives STARTED since 32, at block 63 gives LOCKED_IN since 64,
and at block 95 gives ACTIVE since 96 (blocks 63 and 31 of the 96-block
chain are its ancestors, as the last two conjuncts record). -/
theorem scenarioS1_amended (p2 : List Bool) (p3 : List Nat)
    (h2 : p2.length = 32) (hsig : (p2.filter (fun b => b)).length = 28)
    (h3 : p3.length = 32) :
    GetStateFor cfgS1 firstPeriodS1 = .STARTED ∧
    GetStateSinceHeightFor cfgS1 firstPeriodS1 = 32 ∧
    GetStateFor cfgS1 (p2.map verOf ++ firstPeriodS1) = .LOCKED_IN ∧
    GetStateSinceHeightFor cfgS1 (p2.map verOf ++ firstPeriodS1) = 64 ∧
    GetStateFor cfgS1 (p3 ++ (p2.map verOf ++ firstPeriodS1)) = .ACTIVE ∧
    GetStateSinceHeightFor cfgS1 (p3 ++ (p2.map verOf ++ firstPeriodS1)) = 96 ∧
    ancestor (p3 ++ (p2.map verOf ++ firstPeriodS1)) 63 = p2.map verOf ++ firstPeriodS1 ∧
    ancestor (p3 ++ (p2.map verOf ++ firstPeriodS1)) 31 = firstPeriodS1 := by
  have hN : ¬(cfgS1.start_height = NEVER_ACTIVE ∧ cfgS1.timeout_height = NEVER_ACTIVE) := by
    decide
  have hA : cfgS1.start_height ≠ ALWAYS_ACTIVE := by decide
  have hper : (1 : Int) ≤ cfgS1.period := by decide
  have hm2 : ((p2.map verOf).length : Int) = cfgS1.period := by
    rw [List.length_map, h2]
    decide
  have hp3 : ((p3.length : Int)) = cfgS1.period := by
    rw [h3]
    decide
  have hh64 : height (p2.map verOf ++ firstPeriodS1) = 63 := by
    rw [height, List.length_append, List.length_map, h2]
    decide
  have hh96 : height (p3 ++ (p2.map verOf ++ firstPeriodS1)) = 95 := by
    rw [height, List.length_append, List.length_append, List.length_map, h2, h3]
    decide
  have G1 : GetStateFor cfgS1 firstPeriodS1 = .STARTED := by decide
  have St1 : stateAt cfgS1 firstPeriodS1 = .STARTED := by decide
  have S1 : GetStateSinceHeightFor cfgS1 firstPeriodS1 = 32 := by decide
  have St2 : stateAt cfgS1 (p2.map verOf ++ firstPeriodS1) = .LOCKED_IN := by
    rw [stateAt_append_period cfgS1 _ _ hm2 hper, St1]
    rw [if_neg (by rw [hh64]; decide)]
    simp only [stateTransition]
    have hcnt : countCond cfgS1 cfgS1.period.toNat (p2.map verOf ++ firstPeriodS1) = 28 := by
      rw [countCond_eq_take_filter]
      have htn : cfgS1.period.toNat = (p2.map verOf).length := by
        rw [List.length_map, h2]
        decide
      rw [htn, take_append_self]
      exact (filter_map_verOf p2).trans hsig
    rw [hcnt, if_pos (by decide)]
  have hal64 : alignPrev cfgS1 (p2.map verOf ++ firstPeriodS1) =
      p2.map verOf ++ firstPeriodS1 :=
    alignPrev_of_aligned cfgS1 (by rw [hh64]; decide)
  have G2 : GetStateFor cfgS1 (p2.map verOf ++ firstPeriodS1) = .LOCKED_IN := by
    rw [GetStateFor_eq_stateAt cfgS1 _ hN hA, hal64, St2]
  have S2 : GetStateSinceHeightFor cfgS1 (p2.map verOf ++ firstPeriodS1) = 64 := by
    unfold GetStateSinceHeightFor
    rw [if_neg hA, if_neg (by rw [G2]; decide), G2, hal64]
    rw [sinceWalk_append_period cfgS1 _ _ _ hm2 hper]
    have hguard : ¬(firstPeriodS1 ≠ [] ∧ GetStateFor cfgS1 firstPeriodS1 = .LOCKED_IN) := by
      rintro ⟨-, hq⟩
      rw [G1] at hq
      exact absurd hq (by decide)
    rw [if_neg hguard, hh64]
    decide
  have St3 : stateAt cfgS1 (p3 ++ (p2.map verOf ++ firstPeriodS1)) = .ACTIVE := by
    rw [stateAt_append_period cfgS1 _ _ hp3 hper, St2]
    rw [if_neg (by rw [hh96]; decide)]
    simp only [stateTransition]
    rw [if_pos (by rw [hh96]; decide)]
  have hal96 : alignPrev cfgS1 (p3 ++ (p2.map verOf ++ firstPeriodS1)) =
      p3 ++ (p2.map verOf ++ firstPeriodS1) :=
    alignPrev_of_aligned cfgS1 (by rw [hh96]; decide)
  have G3 : GetStateFor cfgS1 (p3 ++ (p2.map verOf ++ firstPeriodS1)) = .ACTIVE := by
    rw [GetStateFor_eq_stateAt cfgS1 _ hN hA, hal96, St3]
  have S3 : GetStateSinceHeightFor cfgS1 (p3 ++ (p2.map verOf ++ firstPeriodS1)) = 96 := by
    unfold GetStateSinceHeightFor
    rw [if_neg hA, if_neg (by rw [G3]; decide), G3, hal96]
    rw [sinceWalk_append_period cfgS1 _ _ _ hp3 hper]
    have hguard : ¬((p2.map verOf ++ firstPeriodS1) ≠ [] ∧
        GetStateFor cfgS1 (p2.map verOf ++ firstPeriodS1) = .ACTIVE) := by
      rintro ⟨-, hq⟩
      rw [G2] at hq
      exact absurd hq (by decide)
    rw [if_neg hguard, hh96]
    decide
  have anc63 : ancestor (p3 ++ (p2.map verOf ++ firstPeriodS1)) 63 =
      p2.map verOf ++ firstPeriodS1 := by
    rw [← hh64]
    exact ancestor_append _ _
  have anc31 : ancestor (p3 ++ (p2.map verOf ++ firstPeriodS1)) 31 = firstPeriodS1 := by
    rw [← List.append_assoc]
    have h31 : (31 : Int) = height firstPeriodS1 := by decide
    rw [h31]
    exact ancestor_append _ _
  exact ⟨G1, S1, G2, S2, G3, S3, anc63, anc31⟩

/-! ### Witnesses -/

/-- Witness for C1 at a concrete input: deployment cfgW (period 2,
threshold 2), chain of heights 0..3 whose top two blocks signal; the
previous boundary is STARTED and the theorem yields LOCKED_IN. -/
theorem started_transition_characterization_witness :
    stateAt cfgW [1, 1, 0, 0] = .LOCKED_IN := by
  have h := started_transition_characterization cfgW 1 [1, 0, 0] (by decide) (by decide)
  rw [h.1]
  decide

/-- Witness for C2 (amended) at a concrete order of the second period
(28 signalling blocks then 4 non-signalling ones) and concrete further
blocks (32 non-signalling). -/
theorem scenarioS1_amended_witness :
    GetStateFor cfgS1 firstPeriodS1 = .STARTED ∧
    GetStateSinceHeightFor cfgS1 firstPeriodS1 = 32 ∧
    GetStateFor cfgS1
      ((List.replicate 28 true ++ List.replicate 4 false).map verOf ++ firstPeriodS1) =
      .LOCKED_IN ∧
    GetStateSinceHeightFor cfgS1
      ((List.replicate 28 true ++ List.replicate 4 false).map verOf ++ firstPeriodS1) = 64 ∧
    GetStateFor cfgS1 (List.replicate 32 536870912 ++
      ((List.replicate 28 true ++ List.replicate 4 false).map verOf ++ firstPeriodS1)) =
      .ACTIVE ∧
    GetStateSinceHeightFor cfgS1 (List.replicate 32 536870912 ++
      ((List.replicate 28 true ++ List.replicate 4 false).map verOf ++ firstPeriodS1)) = 96 ∧
    ancestor (List.replicate 32 536870912 ++
      ((List.replicate 28 true ++ List.replicate 4 false).map verOf ++ firstPeriodS1)) 63 =
      (List.replicate 28 true ++ List.replicate 4 false).map verOf ++ firstPeriodS1 ∧
    ancestor (List.replicate 32 536870912 ++
      ((List.replicate 28 true ++ List.replicate 4 false).map verOf ++ firstPeriodS1)) 31 =
      firstPeriodS1 :=
  scenarioS1_amended (List.replicate 28 true ++ List.replicate 4 false)
    (List.replicate 32 536870912) (by decide) (by decide) (by decide)

/-- Witness for C3 at a concrete input: a three-block chain on cfgW. -/
theorem period_stability_witness :
    GetStateFor cfgW [1, 1, 0] =
      GetStateFor cfgW
        (ancestor [1, 1, 0] (height [1, 1, 0] - ((height [1, 1, 0] + 1) % cfgW.period))) :=
  period_stability cfgW [1, 1, 0] (by decide)

/-- Witness for C4 (amended) at the concrete S1 deployment and the
41-block signalling chain. -/
theorem since_postconditions_amended_witness :
    GetStateSinceHeightFor cfgS1 c41 % cfgS1.period = 0 ∧
    0 ≤ GetStateSinceHeightFor cfgS1 c41 ∧
    GetStateSinceHeightFor cfgS1 c41 ≤ (height c41 + 1) + 1 ∧
    ((cfgS1.start_height ≠ ALWAYS_ACTIVE ∧ GetStateFor cfgS1 c41 ≠ .DEFINED) →
      (GetStateSinceHeightFor cfgS1 c41 = height (alignPrev cfgS1 c41) + 1 ↔
        FirstPeriodInState cfgS1 c41)) :=
  since_postconditions_amended cfgS1 c41 (by decide)

/-- Witness for C5 at a concrete input: six signalling blocks on cfgW
reach ACTIVE, and the minimum activation height is indeed below the
computed height. -/
theorem min_activation_guarantee_witness :
    cfgW.min_activation_height ≤ height [1, 1, 1, 1, 1, 1] + 1 :=
  min_activation_guarantee cfgW [1, 1, 1, 1, 1, 1] (by decide) (by decide)

/-- Witness for C6 at the two concrete sentinel deployments and a
one-block chain. -/
theorem sentinel_fast_paths_witness :
    (GetStateFor cfgAlways [536870912] = .ACTIVE ∧
      GetStateSinceHeightFor cfgAlways [536870912] = 0) ∧
    (GetStateFor cfgNever [536870912] = .DEFINED ∧
      GetStateSinceHeightFor cfgNever [536870912] = 0) :=
  ⟨(sentinel_fast_paths cfgAlways [536870912]).1 (by decide),
   (sentinel_fast_paths cfgNever [536870912]).2 (by decide)⟩

/-- Witness for C7 at a concrete input: a three-block chain on cfgW. -/
theorem stats_correct_witness :
    GetStateStatisticsFor cfgW [1, 0, 1] =
      { period := cfgW.period, threshold := cfgW.threshold,
        elapsed := specElapsed cfgW [1, 0, 1], count := specCount cfgW [1, 0, 1],
        possible := decide (cfgW.period - cfgW.threshold ≥
          specElapsed cfgW [1, 0, 1] - specCount cfgW [1, 0, 1]) } :=
  stats_correct cfgW [1, 0, 1] (by decide) (by decide)

/-- Witness for C8 at a concrete input: cfgLot with two periods of
non-signalling blocks; the state is MUST_SIGNAL, not FAILED. -/
theorem lot_no_failed_witness : GetStateFor cfgLot [0, 0, 0, 0] ≠ .FAILED :=
  lot_no_failed cfgLot [0, 0, 0, 0] (by decide) (by decide)

/-- Witness for C9 at a concrete input: the genesis block of an S1 chain
(height 0, below the period) is DEFINED although start_height = 0. -/
theorem early_blocks_defined_witness :
    GetStateFor cfgS1 [536870912] = .DEFINED :=
  (early_blocks_defined cfgS1 [536870912] (by decide) (by decide) (by decide)).1 (by decide)

end VersionBits
